import Mathlib

/-!
Verification of the consumer portfolio analytics engine
(`src/agents/consumer_framework.py`): portfolio loading, allocation
summary, stress tests, growth projection and rebalancing actions.

Modelling conventions.
* Python/numpy floats are modelled by `PFloat`: either a finite value
  (an exact rational, idealising float arithmetic) or one of the
  non-finite floats `nan`, `inf`, `ninf` produced by division by zero.
  `pdiv` follows numpy: `0/0 = nan`, `x/0 = ±inf` for `x ≠ 0`.
* Quantities that the source can only ever compute as finite numbers
  (position values, stress P&L) are plain rationals.
* Python dicts are association lists (`List (String × _)`); Python
  dicts preserve insertion order, so iteration order is list order and
  `dict.get k d` is `(l.lookup k).getD d`.
* A YAML blueprint is a structure of `Option`-valued sections: `none`
  models an absent key.  `blueprint["portfolio"]["holdings"]` is
  direct subscripting, so a missing portfolio section is a `KeyError`;
  every other section is read with `.get(_, default)`.
* `pd.DataFrame(list)` of an empty list has no columns, so
  `load_portfolio` on an empty holdings list raises `KeyError` when it
  subscripts the `quantity` column; the embedding returns `.error`
  there as well.
* Loops that build Python lists by `append` are embedded as `foldl`
  over a named step function appending singleton lists.
* `holdings.sort_values("value", ascending=False)` uses pandas
  `nargsort` with numpy's default `kind="quicksort"`, which is
  documented as not stable.  The embedding transcribes numpy's generic
  argsort kernel (`aquicksort_` with its `SMALL_QUICKSORT = 15`
  insertion-sort cutoff, median-of-three Hoare partition, explicit
  segment stack, and depth-limited `aheapsort_` fallback, from
  `npysort/quicksort.c.src`) together with pandas `nargsort`'s
  descending path (reverse the rows, argsort ascending, reverse the
  indexer).  Loops are written with ample fuel; with the chosen fuel
  they run to completion exactly as the C does.
-/

/-- A Python/numpy float: `nan`, `+inf`, `-inf`, or a finite value
modelled as an exact rational. -/
inductive PFloat where
  | nan : PFloat
  | inf : PFloat
  | ninf : PFloat
  | val : ℚ → PFloat
deriving DecidableEq

/-- IEEE addition on `PFloat` (signed zeros are irrelevant here). -/
def pAdd : PFloat → PFloat → PFloat
  | .nan, _ => .nan
  | _, .nan => .nan
  | .inf, .ninf => .nan
  | .ninf, .inf => .nan
  | .inf, _ => .inf
  | _, .inf => .inf
  | .ninf, _ => .ninf
  | _, .ninf => .ninf
  | .val a, .val b => .val (a + b)

/-- IEEE multiplication on `PFloat`. -/
def pMul : PFloat → PFloat → PFloat
  | .nan, _ => .nan
  | _, .nan => .nan
  | .inf, .inf => .inf
  | .inf, .ninf => .ninf
  | .ninf, .inf => .ninf
  | .ninf, .ninf => .inf
  | .inf, .val b => if 0 < b then .inf else if b < 0 then .ninf else .nan
  | .val a, .inf => if 0 < a then .inf else if a < 0 then .ninf else .nan
  | .ninf, .val b => if 0 < b then .ninf else if b < 0 then .inf else .nan
  | .val a, .ninf => if 0 < a then .ninf else if a < 0 then .inf else .nan
  | .val a, .val b => .val (a * b)

/-- numpy float division: finite quotient when the divisor is nonzero,
otherwise `nan` for `0/0` and `±inf` for `x/0`, `x ≠ 0`. -/
def pdiv (a b : ℚ) : PFloat :=
  if b ≠ 0 then .val (a / b) else if 0 < a then .inf else if a < 0 then .ninf else .nan

/-- Python float comparison `x > q` for a `PFloat` against a finite
bound: `nan` compares false, `+inf` true, `-inf` false. -/
def pGtQ : PFloat → ℚ → Bool
  | .nan, _ => false
  | .inf, _ => true
  | .ninf, _ => false
  | .val a, q => decide (q < a)

/-- True exactly on `nan`. -/
def PFloat.isNan : PFloat → Bool
  | .nan => true
  | _ => false

/-- pandas `Series.sum()` with its default `skipna=True`: `nan`
entries are skipped and the rest left-folded with float addition. -/
def psum (l : List PFloat) : PFloat :=
  (l.filter (fun x => !x.isNan)).foldl pAdd (.val 0)

/-- Python float sum by repeated `+=` (no NaN skipping). -/
def pfsum (l : List PFloat) : PFloat := l.foldl pAdd (.val 0)

/-- One record of `blueprint["portfolio"]["holdings"]`. -/
structure RawHolding where
  symbol : String
  asset_class : String
  quantity : ℚ
  price : ℚ
deriving DecidableEq

/-- A row of the holdings DataFrame after `load_portfolio` added the
`value` and `weight` columns. -/
structure Position where
  symbol : String
  asset_class : String
  quantity : ℚ
  price : ℚ
  value : ℚ
  weight : PFloat
deriving DecidableEq

/-- The dict returned by `ConsumerDataAgent.load_portfolio`. -/
structure Portfolio where
  holdings : List Position
  total_value : ℚ
  profile : List (String × String)
deriving DecidableEq

/-- One entry of the `stress_tests` section: `description` and
`shocks` are read with `.get`, so both are optional. -/
structure StressCfg where
  description : Option String
  shocks : Option (List (String × ℚ))
deriving DecidableEq

/-- The `action_templates` section; every key is read with `.get`. -/
structure ActionTemplates where
  monthly_contribution : Option ℚ
  rebalance_threshold : Option ℚ
  max_single_position : Option ℚ
  notes : Option (List String)
deriving DecidableEq

/-- The YAML blueprint dict; `none` models an absent section.
`portfolio_holdings` stands for `blueprint["portfolio"]["holdings"]`
(`none` when either key is missing). -/
structure Blueprint where
  portfolio_holdings : Option (List RawHolding)
  user_profile : Option (List (String × String))
  stress_tests : Option (List (String × StressCfg))
  expected_returns : Option (List (String × ℚ))
  policy_targets : Option (List (String × ℚ))
  action_templates : Option ActionTemplates
deriving DecidableEq

/-- `ConsumerDataAgent.load_portfolio` (consumer_framework.py:22-33):
`value = quantity * price`, `weight = value / value.sum()` (numpy
division, unguarded), `total_value = value.sum()`, profile read with
`.get("user_profile", {})`.  A missing `portfolio` section — and an
empty holdings list, whose DataFrame has no `quantity` column — raise
`KeyError`. -/
def load_portfolio (bp : Blueprint) : Except String Portfolio :=
  match bp.portfolio_holdings with
  | none => .error "KeyError"
  | some hs =>
    if hs.isEmpty then .error "KeyError"
    else
      Except.ok
        { holdings := hs.map (fun h =>
            { symbol := h.symbol
              asset_class := h.asset_class
              quantity := h.quantity
              price := h.price
              value := h.quantity * h.price
              weight := pdiv (h.quantity * h.price)
                ((hs.map (fun g => g.quantity * g.price)).sum) })
          total_value := (hs.map (fun g => g.quantity * g.price)).sum
          profile := bp.user_profile.getD [] }

/-- numpy's `@TYPE@_LT` for float64 restricted to finite values (the
NaN clause is vacuous here, since position values are finite). -/
def npLT (a b : ℚ) : Bool := decide (a < b)

/-- Read `tosort[i]` (indices are always in range in the kernel). -/
def lget (t : List ℕ) (i : ℕ) : ℕ := t.getD i 0

/-- numpy `INTP_SWAP(tosort[i], tosort[j])`. -/
def lswap (t : List ℕ) (i j : ℕ) : List ℕ := (t.set i (lget t j)).set j (lget t i)

/-- `v[tosort[i]]`: the value the argsort kernel compares at slot `i`. -/
def vof (v : List ℚ) (t : List ℕ) (i : ℕ) : ℚ := v.getD (lget t i) 0

/-- Inner shift loop of the insertion sort in `aquicksort_`:
`while (pj > pl && LT(vp, v[*pk])) *pj-- = *pk--;`. -/
def insInner (v : List ℚ) (pl : ℕ) (vp : ℚ) : ℕ → List ℕ → ℕ → (List ℕ × ℕ)
  | 0, t, pj => (t, pj)
  | fuel + 1, t, pj =>
    if decide (pl < pj) && npLT vp (vof v t (pj - 1)) then
      insInner v pl vp fuel (t.set pj (lget t (pj - 1))) (pj - 1)
    else (t, pj)

/-- Outer loop of the insertion sort in `aquicksort_`:
`for (pi = pl + 1; pi <= pr; ++pi)`. -/
def insSortFrom (v : List ℚ) (pl pr : ℕ) : ℕ → ℕ → List ℕ → List ℕ
  | 0, _, t => t
  | fuel + 1, pi, t =>
    if pi ≤ pr then
      let vi := lget t pi
      let r := insInner v pl (v.getD vi 0) (pi + 1) t pi
      insSortFrom v pl pr fuel (pi + 1) (r.1.set r.2 vi)
    else t

/-- Insertion sort of the segment `[pl, pr]` of the index array — the
path `aquicksort_` takes when the segment has at most
`SMALL_QUICKSORT + 1 = 16` elements. -/
def insSortSeg (v : List ℚ) (pl pr : ℕ) (t : List ℕ) : List ℕ :=
  insSortFrom v pl pr (pr + 2 - pl) (pl + 1) t

/-- `do ++pi; while (LT(v[*pi], vp));` of the Hoare partition. -/
def scanUp (v : List ℚ) (vp : ℚ) (t : List ℕ) : ℕ → ℕ → ℕ
  | 0, pi => pi + 1
  | fuel + 1, pi =>
    if npLT (vof v t (pi + 1)) vp then scanUp v vp t fuel (pi + 1) else pi + 1

/-- `do --pj; while (LT(vp, v[*pj]));` of the Hoare partition. -/
def scanDown (v : List ℚ) (vp : ℚ) (t : List ℕ) : ℕ → ℕ → ℕ
  | 0, pj => pj - 1
  | fuel + 1, pj =>
    if npLT vp (vof v t (pj - 1)) then scanDown v vp t fuel (pj - 1) else pj - 1

/-- The Hoare scan-and-swap loop of `aquicksort_`: scan up, scan down,
stop when the scans cross, otherwise swap and continue.  Returns the
final array and `pi`. -/
def hoareLoop (v : List ℚ) (vp : ℚ) (sfuel : ℕ) : ℕ → List ℕ → ℕ → ℕ → (List ℕ × ℕ)
  | 0, t, pi, _ => (t, pi)
  | fuel + 1, t, pi, pj =>
    let pi2 := scanUp v vp t sfuel pi
    let pj2 := scanDown v vp t sfuel pj
    if pj2 ≤ pi2 then (t, pi2)
    else hoareLoop v vp sfuel fuel (lswap t pi2 pj2) pi2 pj2

/-- One partition step of `aquicksort_` on `[pl, pr]`: median-of-three
pivot selection (three conditional swaps), park the pivot index at
`pr - 1`, Hoare partition, and swap the pivot into its final slot
`pi`.  Returns the array and `pi`. -/
def partitionStep (v : List ℚ) (pl pr : ℕ) (t : List ℕ) : (List ℕ × ℕ) :=
  let pm := pl + (pr - pl) / 2
  let t1 := if npLT (vof v t pm) (vof v t pl) then lswap t pm pl else t
  let t2 := if npLT (vof v t1 pr) (vof v t1 pm) then lswap t1 pr pm else t1
  let t3 := if npLT (vof v t2 pm) (vof v t2 pl) then lswap t2 pm pl else t2
  let vp := vof v t3 pm
  let t4 := lswap t3 pm (pr - 1)
  let r := hoareLoop v vp (v.length + 2) (pr + 2) t4 pl (pr - 1)
  (lswap r.1 r.2 (pr - 1), r.2)

/-- 1-based access `a[k]` of `aheapsort_`, whose `a = tosort - 1`
starts at `pl`. -/
def heapGet (t : List ℕ) (pl k : ℕ) : ℕ := lget t (pl + k - 1)

/-- 1-based update `a[k] = x` of `aheapsort_`. -/
def heapSet (t : List ℕ) (pl k x : ℕ) : List ℕ := t.set (pl + k - 1) x

/-- The sift-down loop shared by both phases of `aheapsort_`. -/
def siftLoop (v : List ℚ) (pl : ℕ) (tmpv : ℚ) (n : ℕ) : ℕ → List ℕ → ℕ → ℕ → (List ℕ × ℕ)
  | 0, t, i, _ => (t, i)
  | fuel + 1, t, i, j =>
    if j ≤ n then
      let j2 := if decide (j < n) &&
          npLT (v.getD (heapGet t pl j) 0) (v.getD (heapGet t pl (j + 1)) 0) then j + 1 else j
      if npLT tmpv (v.getD (heapGet t pl j2) 0) then
        siftLoop v pl tmpv n fuel (heapSet t pl i (heapGet t pl j2)) j2 (j2 + j2)
      else (t, i)
    else (t, i)

/-- Heapify phase of `aheapsort_`: `for (l = n >> 1; l > 0; --l)`. -/
def heapBuild (v : List ℚ) (pl n : ℕ) : ℕ → List ℕ → List ℕ
  | 0, t => t
  | l + 1, t =>
    let tmp := heapGet t pl (l + 1)
    let r := siftLoop v pl (v.getD tmp 0) n (n + 2) t (l + 1) ((l + 1) * 2)
    heapBuild v pl n l (heapSet r.1 pl r.2 tmp)

/-- Extraction phase of `aheapsort_`: `for (; n > 1;)`. -/
def heapPop (v : List ℚ) (pl : ℕ) : ℕ → List ℕ → List ℕ
  | 0, t => t
  | 1, t => t
  | n + 2, t =>
    let tmp := heapGet t pl (n + 2)
    let t1 := heapSet t pl (n + 2) (heapGet t pl 1)
    let r := siftLoop v pl (v.getD tmp 0) (n + 1) (n + 3) t1 1 2
    heapPop v pl (n + 1) (heapSet r.1 pl r.2 tmp)

/-- numpy `aheapsort_` on the segment of `n` slots starting at `pl` —
the introsort fallback once the depth limit is exhausted. -/
def aheapsortSeg (v : List ℚ) (pl n : ℕ) (t : List ℕ) : List ℕ :=
  heapPop v pl n (heapBuild v pl n (n / 2) t)

/-- Main loop of `aquicksort_`: partition while the segment holds more
than `SMALL_QUICKSORT = 15` elements (falling back to heapsort when
`depth_limit-- < 0`), pushing the larger side on the explicit stack;
insertion-sort small segments; pop until the stack is empty. -/
def qsLoop (v : List ℚ) : ℕ → ℕ → ℕ → List (ℕ × ℕ) → ℤ → List ℕ → List ℕ
  | 0, _, _, _, _, t => t
  | fuel + 1, pl, pr, stack, depth, t =>
    if 15 < pr - pl then
      if depth < 0 then
        let t1 := aheapsortSeg v pl (pr - pl + 1) t
        match stack with
        | [] => t1
        | (pl2, pr2) :: rest => qsLoop v fuel pl2 pr2 rest (depth - 1) t1
      else
        let r := partitionStep v pl pr t
        if r.2 - pl < pr - r.2 then
          qsLoop v fuel pl (r.2 - 1) ((r.2 + 1, pr) :: stack) (depth - 1) r.1
        else
          qsLoop v fuel (r.2 + 1) pr ((pl, r.2 - 1) :: stack) (depth - 1) r.1
    else
      let t1 := insSortSeg v pl pr t
      match stack with
      | [] => t1
      | (pl2, pr2) :: rest => qsLoop v fuel pl2 pr2 rest depth t1

/-- numpy `ndarray.argsort(kind="quicksort")` on finite values:
`tosort = [0..n-1]`, `depth_limit = npy_get_msb(num) * 2`, then the
`aquicksort_` main loop. -/
def npArgsortQuicksort (v : List ℚ) : List ℕ :=
  if v.length = 0 then []
  else qsLoop v (4 * v.length + 64) 0 (v.length - 1) [] (2 * (Nat.log2 v.length : ℤ))
    (List.range v.length)

/-- pandas `nargsort(values, kind="quicksort", ascending=False)` with
no NaNs present: reverse the values and the index range, argsort
ascending with numpy's default kernel, map through the reversed index
and reverse the result. -/
def nargsortDesc (values : List ℚ) : List ℕ :=
  let rev_idx := (List.range values.length).reverse
  ((npArgsortQuicksort values.reverse).map (fun i => rev_idx.getD i 0)).reverse

/-- One record of the `top_positions` list: the columns kept by
`summarize_allocation` (`symbol`, `asset_class`, `value`, `weight`). -/
structure TopRecord where
  symbol : String
  asset_class : String
  value : ℚ
  weight : PFloat
deriving DecidableEq

/-- Projection of a holdings row onto the columns of a top-positions
record. -/
def toTopRecord (p : Position) : TopRecord :=
  { symbol := p.symbol, asset_class := p.asset_class
    value := p.value, weight := p.weight }

/-- The dict returned by `summarize_allocation`. -/
structure AllocationSummary where
  weights : List (String × PFloat)
  top_positions : List TopRecord
  herfindahl_index : PFloat
deriving DecidableEq

/-- `ConsumerAnalyticsAgent.summarize_allocation`
(consumer_framework.py:40-56).  `groupby("asset_class")` sorts the
group keys (pandas default `sort=True`); group weights are
`allocation / allocation.sum()` (numpy division, unguarded);
`top_positions` is `sort_values("value", ascending=False).head(5)`,
i.e. the rows picked by the first five entries of the pandas
descending `nargsort` indexer over numpy's default (non-stable)
quicksort kernel; the Herfindahl index is the pandas sum of squared
position weights. -/
def summarize_allocation (holdings : List Position) : AllocationSummary :=
  let classes := List.insertionSort (fun a b : String => a ≤ b)
    ((holdings.map (fun p => p.asset_class)).dedup)
  let grouped := classes.map (fun c =>
    (c, ((holdings.filter (fun p => p.asset_class == c)).map (fun p => p.value)).sum))
  { weights := grouped.map (fun cv =>
      (cv.1, pdiv cv.2 ((grouped.map (fun dv => dv.2)).sum)))
    top_positions :=
      ((nargsortDesc (holdings.map (fun p => p.value))).take 5).filterMap
        (fun i => (holdings.get? i).map toTopRecord)
    herfindahl_index := psum (holdings.map (fun p => pMul p.weight p.weight)) }

/-- One entry of the list returned by `run_stress_tests`. -/
structure StressResult where
  name : String
  description : String
  pnl : ℚ
  pnl_pct : ℚ
deriving DecidableEq

/-- Body of the inner loop of `run_stress_tests`
(consumer_framework.py:63-65): append
`value * (1 + shocks.get(asset_class, shocks.get("default", 0.0)))`. -/
def shocked_step (shocks : List (String × ℚ)) (sv : List ℚ) (row : Position) : List ℚ :=
  sv ++ [row.value * (1 + ((shocks.lookup row.asset_class).getD
    ((shocks.lookup "default").getD 0)))]

/-- Body of the outer loop of `run_stress_tests`
(consumer_framework.py:60-79): shock every position, total the shocked
values, and append the scenario record with its P&L.  `pnl_pct` is
guarded by `if current_value != 0 else 0.0`. -/
def stress_step (holdings : List Position) (acc : List StressResult)
    (ns : String × StressCfg) : List StressResult :=
  let shocks := ns.2.shocks.getD []
  let shocked_values := holdings.foldl (shocked_step shocks) []
  let scenario_value := shocked_values.sum
  let current_value := (holdings.map (fun p => p.value)).sum
  let pnl := scenario_value - current_value
  acc ++ [{ name := ns.1
            description := ns.2.description.getD ""
            pnl := pnl
            pnl_pct := if current_value ≠ 0 then pnl / current_value else 0 }]

/-- `ConsumerAnalyticsAgent.run_stress_tests`
(consumer_framework.py:58-82): fold `stress_step` over the
`stress_tests` section (`.get`, default empty). -/
def run_stress_tests (bp : Blueprint) (holdings : List Position) : List StressResult :=
  (bp.stress_tests.getD []).foldl (stress_step holdings) []

/-- One `{"month": m, "projected_value": v}` record of the growth
projection. -/
structure ProjPoint where
  month : ℕ
  projected_value : PFloat
deriving DecidableEq

/-- The blended monthly return recomputed by each iteration of the
`project_growth` loop (consumer_framework.py:91-94): a Python `+=`
fold of `weight * (expected_returns.get(asset_class, 0.0) / 12)` over
the rows. -/
def monthly_return_of (bp : Blueprint) (holdings : List Position) : PFloat :=
  holdings.foldl (fun acc row =>
    pAdd acc (pMul row.weight
      (.val ((((bp.expected_returns.getD []).lookup row.asset_class).getD 0) / 12))))
    (.val 0)

/-- The `for month in range(1, months + 1)` loop of `project_growth`
(consumer_framework.py:90-97): `k` months remain, `m` is the next
month number, `total` the running total. -/
def project_loop (bp : Blueprint) (holdings : List Position) :
    ℕ → ℕ → PFloat → List ProjPoint
  | 0, _, _ => []
  | k + 1, m, total =>
    let t := pAdd (pMul total (pAdd (.val 1) (monthly_return_of bp holdings)))
      (.val ((bp.action_templates.bind ActionTemplates.monthly_contribution).getD 0))
    { month := m, projected_value := t } :: project_loop bp holdings k (m + 1) t

/-- `ConsumerAnalyticsAgent.project_growth`
(consumer_framework.py:84-100): seed the loop with
`holdings["value"].sum()` and month number 1. -/
def project_growth (bp : Blueprint) (holdings : List Position) (months : ℕ) :
    List ProjPoint :=
  project_loop bp holdings months 1 (.val ((holdings.map (fun p => p.value)).sum))

/-- The semantic fields interpolated into one rebalance action string
(consumer_framework.py:118-120): the direction word, the dollar
amount, the asset class and the target fraction. -/
structure RebalanceAction where
  direction : String
  dollar : ℚ
  asset_class : String
  target : ℚ
deriving DecidableEq

/-- Body of the `generate_rebalance_actions` loop
(consumer_framework.py:112-120): drift against the target, inclusive
threshold test, append the action. -/
def rebalance_step (bp : Blueprint) (allocation : List (String × ℚ)) (total_value : ℚ)
    (acc : List RebalanceAction) (t : String × ℚ) : List RebalanceAction :=
  let current := (allocation.lookup t.1).getD 0
  let drift := current - t.2
  if |drift| ≥ (bp.action_templates.bind ActionTemplates.rebalance_threshold).getD 0 then
    acc ++ [{ direction := if 0 < drift then "Trim" else "Add"
              dollar := |drift| * total_value
              asset_class := t.1
              target := t.2 }]
  else acc

/-- `ConsumerActionAgent.generate_rebalance_actions`
(consumer_framework.py:107-122): fold `rebalance_step` over the
`policy_targets` section (`.get`, default empty); the threshold is
`action_templates.get("rebalance_threshold", 0.0)`. -/
def generate_rebalance_actions (bp : Blueprint) (allocation : List (String × ℚ))
    (total_value : ℚ) : List RebalanceAction :=
  (bp.policy_targets.getD []).foldl (rebalance_step bp allocation total_value) []

/-- The semantic fields interpolated into one concentration action
string (consumer_framework.py:129-131). -/
structure ConcAction where
  symbol : String
  weight : PFloat
  limit : ℚ
deriving DecidableEq

/-- Body of the `generate_concentration_actions` loop
(consumer_framework.py:127-131): Python float comparison
`pos["weight"] > max_single`. -/
def conc_step (bp : Blueprint) (acc : List ConcAction) (pos : TopRecord) : List ConcAction :=
  if pGtQ pos.weight ((bp.action_templates.bind ActionTemplates.max_single_position).getD 1) then
    acc ++ [{ symbol := pos.symbol
              weight := pos.weight
              limit := (bp.action_templates.bind ActionTemplates.max_single_position).getD 1 }]
  else acc

/-- `ConsumerActionAgent.generate_concentration_actions`
(consumer_framework.py:124-132): the cap is
`action_templates.get("max_single_position", 1.0)`. -/
def generate_concentration_actions (bp : Blueprint) (top_positions : List TopRecord) :
    List ConcAction :=
  top_positions.foldl (conc_step bp) []

/-- One entry of the action plan: the plan list mixes rebalance
strings, concentration strings and the configured notes, kept apart
here by constructor. -/
inductive ActionItem where
  | rebalance : RebalanceAction → ActionItem
  | concentration : ConcAction → ActionItem
  | note : String → ActionItem
deriving DecidableEq

/-- `ConsumerActionAgent.build_action_plan`
(consumer_framework.py:134-139): `actions = []`, then three `extend`
calls — rebalance actions, concentration actions on
`analytics.get("top_positions", [])`, then
`action_templates.get("notes", [])`. -/
def build_action_plan (bp : Blueprint) (allocation : List (String × ℚ))
    (analytics : AllocationSummary) (total_value : ℚ) : List ActionItem :=
  let actions : List ActionItem := []
  let actions := actions ++
    (generate_rebalance_actions bp allocation total_value).map ActionItem.rebalance
  let actions := actions ++
    (generate_concentration_actions bp analytics.top_positions).map ActionItem.concentration
  actions ++ ((bp.action_templates.bind ActionTemplates.notes).getD []).map ActionItem.note

/-- A list of nonnegative rationals summing to zero is all zero. -/
lemma all_zero_of_sum_eq_zero {l : List ℚ} (h : ∀ x ∈ l, 0 ≤ x) (hz : l.sum = 0) :
    ∀ x ∈ l, x = 0 := by
  induction l with
  | nil => simp
  | cons a t ih =>
    simp only [List.sum_cons] at hz
    have ha : 0 ≤ a := h a (by simp)
    have ht : 0 ≤ t.sum := List.sum_nonneg (fun x hx => h x (by simp [hx]))
    intro x hx
    rcases List.mem_cons.mp hx with rfl | hx
    · linarith
    · exact ih (fun y hy => h y (by simp [hy])) (by linarith) x hx

/-- Blueprint with a single holding of quantity 0: its portfolio has
total value 0. -/
def bpC1 : Blueprint :=
  { portfolio_holdings := some [{ symbol := "AAA", asset_class := "equity", quantity := 0, price := 100 }]
    user_profile := none, stress_tests := none, expected_returns := none
    policy_targets := none, action_templates := none }

/-- C1 fails on the code: on a portfolio with total value 0 (one
position of quantity 0) the loader returns weight `nan` (numpy
`0/0`), not `0.0`. -/
theorem C1_counterexample :
    (load_portfolio bpC1).map (fun pf => pf.holdings.map (fun p => p.weight)) =
      Except.ok [PFloat.nan]
    ∧ PFloat.nan ≠ PFloat.val 0 := by
  constructor
  · simp [load_portfolio, bpC1, pdiv, Except.map]
  · decide

/-- C1 amended: for a nonempty portfolio with nonnegative quantities
and prices whose total value is 0, `load_portfolio` returns normally
but every position weight is `nan` (pandas `0/0`), not `0.0`; the NaN
propagates to the caller.  (An empty holdings list instead raises
`KeyError`, since its DataFrame has no columns.) -/
theorem C1_zero_total_weights_nan (bp : Blueprint) (hs : List RawHolding) (pf : Portfolio)
    (hhs : bp.portfolio_holdings = some hs)
    (hnn : ∀ h ∈ hs, 0 ≤ h.quantity ∧ 0 ≤ h.price)
    (hok : load_portfolio bp = Except.ok pf)
    (hzero : pf.total_value = 0) :
    ∀ p ∈ pf.holdings, p.weight = PFloat.nan := by
  rw [load_portfolio, hhs] at hok
  by_cases hemp : hs.isEmpty
  · simp [hemp] at hok
  · simp only [hemp, Bool.false_eq_true, if_false] at hok
    obtain rfl : _ = pf := Except.ok.inj hok
    simp only at hzero
    intro p hp
    simp only [List.mem_map] at hp
    obtain ⟨h, hh, rfl⟩ := hp
    have hv0 : h.quantity * h.price = 0 := by
      refine all_zero_of_sum_eq_zero (l := hs.map (fun g => g.quantity * g.price))
        ?_ hzero _ (List.mem_map_of_mem _ hh)
      intro x hx
      simp only [List.mem_map] at hx
      obtain ⟨g, hg, rfl⟩ := hx
      exact mul_nonneg (hnn g hg).1 (hnn g hg).2
    simp only [hv0, hzero, pdiv]
    norm_num

/-- The degenerate portfolio record produced by `load_portfolio` on
`bpC1`. -/
def pfC1 : Portfolio :=
  { holdings := [{ symbol := "AAA", asset_class := "equity", quantity := 0, price := 100,
                   value := 0, weight := PFloat.nan }]
    total_value := 0
    profile := [] }

/-- Witness for the amended C1 at the concrete blueprint `bpC1`. -/
theorem C1_witness :
    ({ symbol := "AAA", asset_class := "equity", quantity := 0, price := 100,
       value := 0, weight := PFloat.nan } : Position).weight = PFloat.nan :=
  C1_zero_total_weights_nan bpC1 _ pfC1 rfl (by norm_num)
    (by simp [load_portfolio, bpC1, pfC1, pdiv]) rfl _ (by simp [pfC1])

/-- The projection loop depends on the blueprint only through the
blended monthly return and the monthly contribution. -/
lemma project_loop_congr (bp bp' : Blueprint) (holdings : List Position)
    (hmr : monthly_return_of bp holdings = monthly_return_of bp' holdings)
    (hc : (bp.action_templates.bind ActionTemplates.monthly_contribution).getD 0 =
      (bp'.action_templates.bind ActionTemplates.monthly_contribution).getD 0) :
    ∀ k m t, project_loop bp holdings k m t = project_loop bp' holdings k m t := by
  intro k
  induction k with
  | zero => intro m t; rfl
  | succ k ih => intro m t; simp only [project_loop, hmr, hc, ih]

/-- C2 amended: every core operation except `load_portfolio` treats a
missing configuration section as an empty mapping/list or zero and
returns normally; `load_portfolio` alone hard-fails (`KeyError`) when
the `portfolio` section is absent, because it subscripts
`blueprint["portfolio"]["holdings"]` directly. -/
theorem C2_missing_sections_default :
    (∀ bp : Blueprint, bp.portfolio_holdings = none →
      load_portfolio bp = Except.error "KeyError")
    ∧ (∀ (bp : Blueprint) (holdings : List Position), bp.stress_tests = none →
        run_stress_tests bp holdings = [])
    ∧ (∀ (bp : Blueprint) (holdings : List Position) (months : ℕ),
        bp.expected_returns = none → bp.action_templates = none →
        project_growth bp holdings months =
          project_growth { bp with
            expected_returns := some []
            action_templates := some ⟨some 0, some 0, some 1, some []⟩ } holdings months)
    ∧ (∀ (bp : Blueprint) (alloc : List (String × ℚ)) (V : ℚ), bp.policy_targets = none →
        generate_rebalance_actions bp alloc V = [])
    ∧ (∀ (bp : Blueprint) (alloc : List (String × ℚ)) (analytics : AllocationSummary) (V : ℚ),
        bp.policy_targets = none → bp.action_templates = none →
        build_action_plan bp alloc analytics V =
          (generate_concentration_actions bp analytics.top_positions).map
            ActionItem.concentration) := by
  refine ⟨?_, ?_, ?_, ?_, ?_⟩
  · intro bp h
    rw [load_portfolio, h]
  · intro bp holdings h
    rw [run_stress_tests, h]
    rfl
  · intro bp holdings months hER hAT
    exact project_loop_congr _ _ _ (by simp [monthly_return_of, hER]) (by simp [hAT]) _ _ _
  · intro bp alloc V h
    rw [generate_rebalance_actions, h]
    rfl
  · intro bp alloc analytics V hPT hAT
    simp [build_action_plan, generate_rebalance_actions, hPT, hAT]

/-- Blueprint with every section absent. -/
def bpC2 : Blueprint :=
  { portfolio_holdings := none, user_profile := none, stress_tests := none
    expected_returns := none, policy_targets := none, action_templates := none }

/-- C2 fails on the code: with the `portfolio` section absent,
`load_portfolio` raises (`KeyError`) instead of defaulting. -/
theorem C2_counterexample :
    bpC2.portfolio_holdings = none ∧ load_portfolio bpC2 = Except.error "KeyError" :=
  ⟨rfl, rfl⟩

/-- Witness for the amended C2 at the concrete blueprint `bpC2`. -/
theorem C2_witness :
    load_portfolio bpC2 = Except.error "KeyError"
    ∧ run_stress_tests bpC2 [] = []
    ∧ generate_rebalance_actions bpC2 [] 0 = [] :=
  ⟨C2_missing_sections_default.1 bpC2 rfl,
   C2_missing_sections_default.2.1 bpC2 [] rfl,
   C2_missing_sections_default.2.2.2.1 bpC2 [] 0 rfl⟩

/-- Shape of a successful `load_portfolio` result: the holdings list
it came from, the total value and the per-position records. -/
lemma load_portfolio_ok (bp : Blueprint) (pf : Portfolio)
    (hok : load_portfolio bp = Except.ok pf) :
    ∃ hs : List RawHolding, bp.portfolio_holdings = some hs ∧ hs ≠ [] ∧
      pf.total_value = (hs.map (fun g => g.quantity * g.price)).sum ∧
      pf.holdings = hs.map (fun h =>
        { symbol := h.symbol, asset_class := h.asset_class, quantity := h.quantity,
          price := h.price, value := h.quantity * h.price,
          weight := pdiv (h.quantity * h.price)
            ((hs.map (fun g => g.quantity * g.price)).sum) }) := by
  rw [load_portfolio] at hok
  cases hph : bp.portfolio_holdings with
  | none => rw [hph] at hok; cases hok
  | some hs =>
    rw [hph] at hok
    by_cases hemp : hs.isEmpty
    · simp [hemp] at hok
    · simp only [hemp, Bool.false_eq_true, if_false] at hok
      obtain rfl : _ = pf := Except.ok.inj hok
      exact ⟨hs, rfl, by simpa [List.isEmpty_iff] using hemp, rfl, rfl⟩

/-- On a successfully loaded portfolio with positive total value every
weight is the finite ratio `value / total_value` and these ratios sum
to exactly 1. -/
lemma load_portfolio_weights (bp : Blueprint) (pf : Portfolio)
    (hok : load_portfolio bp = Except.ok pf)
    (hpos : 0 < pf.total_value) :
    (∀ p ∈ pf.holdings, p.weight = PFloat.val (p.value / pf.total_value))
    ∧ (pf.holdings.map (fun p => p.value / pf.total_value)).sum = 1 := by
  obtain ⟨hs, hhs, hne, htot, hhold⟩ := load_portfolio_ok bp pf hok
  have hT : (hs.map (fun g => g.quantity * g.price)).sum ≠ 0 := by
    rw [← htot]; exact ne_of_gt hpos
  constructor
  · intro p hp
    rw [hhold] at hp
    simp only [List.mem_map] at hp
    obtain ⟨h, hh, rfl⟩ := hp
    simp [pdiv, hT, htot]
  · rw [hhold, htot, List.map_map]
    have hdiv : (hs.map (fun h =>
        ((h.quantity * h.price) / (hs.map (fun g => g.quantity * g.price)).sum))).sum
        = (hs.map (fun g => g.quantity * g.price)).sum /
          (hs.map (fun g => g.quantity * g.price)).sum := by
      simp only [div_eq_mul_inv]
      exact List.sum_map_mul_right _ _ _
    simpa [Function.comp_def, div_self hT] using hdiv

/-- C3: on every loaded portfolio with positive total value the
position weights are the finite ratios `value / total_value`, these
sum to exactly 1, and in particular to 1 within the 1e-9 tolerance. -/
theorem C3_weights_sum_one (bp : Blueprint) (pf : Portfolio)
    (hok : load_portfolio bp = Except.ok pf)
    (hpos : 0 < pf.total_value)
    (hnn : ∀ p ∈ pf.holdings, 0 ≤ p.quantity ∧ 0 ≤ p.price) :
    (∀ p ∈ pf.holdings, p.weight = PFloat.val (p.value / pf.total_value))
    ∧ (pf.holdings.map (fun p => p.value / pf.total_value)).sum = 1
    ∧ |(pf.holdings.map (fun p => p.value / pf.total_value)).sum - 1| ≤ 1 / 1000000000 := by
  obtain ⟨hw, hsum⟩ := load_portfolio_weights bp pf hok hpos
  refine ⟨hw, hsum, ?_⟩
  rw [hsum]
  norm_num

/-- Two-position blueprint from the specification's concrete
scenario. -/
def bpW3 : Blueprint :=
  { portfolio_holdings := some
      [{ symbol := "AAA", asset_class := "equity", quantity := 10, price := 100 },
       { symbol := "BBB", asset_class := "bond", quantity := 5, price := 100 }]
    user_profile := none, stress_tests := none, expected_returns := none
    policy_targets := none, action_templates := none }

/-- The portfolio `load_portfolio` builds from `bpW3`: total 1500,
weights 2/3 and 1/3. -/
def pfW3 : Portfolio :=
  { holdings :=
      [{ symbol := "AAA", asset_class := "equity", quantity := 10, price := 100,
         value := 1000, weight := PFloat.val (2/3) },
       { symbol := "BBB", asset_class := "bond", quantity := 5, price := 100,
         value := 500, weight := PFloat.val (1/3) }]
    total_value := 1500
    profile := [] }

/-- `load_portfolio` on `bpW3` produces exactly `pfW3`. -/
lemma load_bpW3 : load_portfolio bpW3 = Except.ok pfW3 := by
  norm_num [load_portfolio, bpW3, pfW3, pdiv]

/-- Witness for C3 at the concrete two-position portfolio. -/
theorem C3_witness :
    (pfW3.holdings.map (fun p => p.value / pfW3.total_value)).sum = 1 :=
  (C3_weights_sum_one bpW3 pfW3 load_bpW3 (by norm_num [pfW3]) (by norm_num [pfW3])).2.1

/-- A left fold whose step appends exactly one element is a map. -/
lemma foldl_append_one {α β : Type} (step : List β → α → List β) (g : α → β)
    (hstep : ∀ acc x, step acc x = acc ++ [g x]) :
    ∀ (l : List α) (acc : List β), l.foldl step acc = acc ++ l.map g := by
  intro l
  induction l with
  | nil => intro acc; simp
  | cons a t ih =>
    intro acc
    rw [List.foldl_cons, hstep, ih, List.map_cons]
    simp

/-- A left fold whose step appends at most one element is a
`filterMap`. -/
lemma foldl_filterMap_one {α β : Type} (step : List β → α → List β) (g : α → Option β)
    (hstep : ∀ acc x, step acc x = acc ++ (g x).toList) :
    ∀ (l : List α) (acc : List β), l.foldl step acc = acc ++ l.filterMap g := by
  intro l
  induction l with
  | nil => intro acc; simp
  | cons a t ih =>
    intro acc
    rw [List.foldl_cons, hstep, ih, List.filterMap_cons]
    cases g a <;> simp

/-- The exact fallback chain of the specification: the shock for the
position's asset class if present, else the scenario's `"default"`
shock if present, else `0.0`. -/
def shock_for (shocks : List (String × ℚ)) (ac : String) : ℚ :=
  (shocks.lookup ac).getD ((shocks.lookup "default").getD 0)

/-- Shocking every position value by `1 + shock` and subtracting the
unshocked total leaves the sum of `value * shock`. -/
lemma shocked_sub_total (holdings : List Position) (shocks : List (String × ℚ)) :
    (holdings.map (fun p => p.value * (1 + shock_for shocks p.asset_class))).sum
      - (holdings.map (fun p => p.value)).sum
      = (holdings.map (fun p => p.value * shock_for shocks p.asset_class)).sum := by
  induction holdings with
  | nil => simp
  | cons a t ih =>
    simp only [List.map_cons, List.sum_cons]
    have hhd : a.value * (1 + shock_for shocks a.asset_class)
        = a.value + a.value * shock_for shocks a.asset_class := by ring
    rw [hhd]
    linarith [ih]

/-- The inner loop of `run_stress_tests` produces the list of shocked
position values. -/
lemma shocked_values_eq (shocks : List (String × ℚ)) (holdings : List Position) :
    holdings.foldl (shocked_step shocks) []
      = holdings.map (fun row => row.value * (1 + shock_for shocks row.asset_class)) := by
  have := foldl_append_one (shocked_step shocks)
    (fun row => row.value * (1 + shock_for shocks row.asset_class))
    (fun acc x => rfl) holdings []
  simpa using this

/-- C4: every scenario shocks each position by exactly the fallback
chain `shock_for` (per-asset-class value, else the `"default"` shock,
else 0.0), so the scenario P&L is the sum of `value * shock`; and a
scenario whose `shocks` mapping is absent yields P&L 0 and P&L% 0
rather than failing. -/
theorem C4_stress_fallback_chain (bp : Blueprint) (holdings : List Position) :
    run_stress_tests bp holdings = (bp.stress_tests.getD []).map (fun ns =>
      { name := ns.1
        description := ns.2.description.getD ""
        pnl := (holdings.map
          (fun p => p.value * shock_for (ns.2.shocks.getD []) p.asset_class)).sum
        pnl_pct := if (holdings.map (fun p => p.value)).sum ≠ 0 then
            (holdings.map
              (fun p => p.value * shock_for (ns.2.shocks.getD []) p.asset_class)).sum /
              (holdings.map (fun p => p.value)).sum
          else 0 })
    ∧ ∀ (n : String) (sc : StressCfg), sc.shocks = none →
        (run_stress_tests { bp with stress_tests := some [(n, sc)] } holdings).map
          (fun r => (r.pnl, r.pnl_pct)) = [(0, 0)] := by
  have hmap : ∀ (l : List (String × StressCfg)),
      l.foldl (stress_step holdings) [] = l.map (fun ns =>
        { name := ns.1
          description := ns.2.description.getD ""
          pnl := (holdings.map
            (fun p => p.value * shock_for (ns.2.shocks.getD []) p.asset_class)).sum
          pnl_pct := if (holdings.map (fun p => p.value)).sum ≠ 0 then
              (holdings.map
                (fun p => p.value * shock_for (ns.2.shocks.getD []) p.asset_class)).sum /
                (holdings.map (fun p => p.value)).sum
            else 0 }) := by
    intro l
    have hfold := foldl_append_one (stress_step holdings) (fun ns =>
      { name := ns.1
        description := ns.2.description.getD ""
        pnl := (holdings.foldl (shocked_step (ns.2.shocks.getD [])) []).sum
          - (holdings.map (fun p => p.value)).sum
        pnl_pct := if (holdings.map (fun p => p.value)).sum ≠ 0 then
            ((holdings.foldl (shocked_step (ns.2.shocks.getD [])) []).sum
              - (holdings.map (fun p => p.value)).sum) /
              (holdings.map (fun p => p.value)).sum
          else 0 : StressResult }) (fun acc x => rfl) l []
    rw [hfold, List.nil_append]
    refine List.map_congr_left (fun ns _ => ?_)
    rw [shocked_values_eq, shocked_sub_total]
  constructor
  · rw [run_stress_tests, hmap]
  · intro n sc hsc
    rw [run_stress_tests]
    simp only [Option.getD_some, hmap, List.map_cons, List.map_nil, hsc]
    simp only [shock_for, Option.getD_none, List.lookup_nil, mul_zero, List.map_cons]
    norm_num

/-- Witness for C4: the shock-free scenario on the concrete
two-position portfolio has P&L 0 and P&L% 0. -/
theorem C4_witness :
    (run_stress_tests { bpW3 with stress_tests := some [("noshocks", ⟨none, none⟩)] }
      pfW3.holdings).map (fun r => (r.pnl, r.pnl_pct)) = [(0, 0)] :=
  (C4_stress_fallback_chain bpW3 pfW3.holdings).2 "noshocks" ⟨none, none⟩ rfl

/-- The specification's blended monthly return: the sum over positions
of `weight * (annual expected return / 12)`, with 0.0 for asset
classes that have no configured expected return. -/
def blended_monthly_return (bp : Blueprint) (holdings : List Position) : PFloat :=
  pfsum (holdings.map (fun row => pMul row.weight
    (.val ((((bp.expected_returns.getD []).lookup row.asset_class).getD 0) / 12))))

/-- The loop's running blended return equals the specification's sum
formula. -/
lemma monthly_return_eq (bp : Blueprint) (holdings : List Position) :
    monthly_return_of bp holdings = blended_monthly_return bp holdings := by
  rw [monthly_return_of, blended_monthly_return, pfsum, List.foldl_map]

/-- The specification's monthly compounding recurrence:
`total_m = total_(m-1) * (1 + r) + c`, seeded with `t0`. -/
def totalRec (r : PFloat) (c : ℚ) (t0 : PFloat) : ℕ → PFloat
  | 0 => t0
  | m + 1 => pAdd (pMul (totalRec r c t0 m) (pAdd (.val 1) r)) (.val c)

/-- The projection loop runs the compounding recurrence: starting
after month `j`, `k` more months produce months `j+1, …, j+k` with the
recurrence's totals. -/
lemma project_loop_totalRec (bp : Blueprint) (holdings : List Position) :
    ∀ (k j : ℕ),
      project_loop bp holdings k (j + 1)
        (totalRec (monthly_return_of bp holdings)
          ((bp.action_templates.bind ActionTemplates.monthly_contribution).getD 0)
          (.val ((holdings.map (fun p => p.value)).sum)) j)
      = (List.range k).map (fun i =>
          { month := j + 1 + i
            projected_value := totalRec (monthly_return_of bp holdings)
              ((bp.action_templates.bind ActionTemplates.monthly_contribution).getD 0)
              (.val ((holdings.map (fun p => p.value)).sum)) (j + 1 + i) }) := by
  intro k
  induction k with
  | zero => intro j; simp [project_loop]
  | succ k ih =>
    intro j
    rw [project_loop, List.range_succ_eq_map, List.map_cons, List.map_map]
    refine List.cons_eq_cons.mpr ⟨by simp [totalRec], ?_⟩
    have hstep := ih (j + 1)
    simp only [totalRec] at hstep
    rw [hstep]
    refine List.map_congr_left (fun i _ => ?_)
    have harith : j + 1 + 1 + i = j + 1 + (i + 1) := by omega
    simp [Function.comp_def, harith]

/-- C5: `project_growth` returns exactly `months` points for months
`1..months` in order, each produced by the recurrence
`total_m = total_(m-1) * (1 + r) + monthly_contribution` seeded from
the current total value, where `r` is the blended return computed from
the original position weights (never reweighted) with 0.0 for asset
classes without a configured expected return; `months = 0` yields the
empty sequence. -/
theorem C5_projection_recurrence (bp : Blueprint) (holdings : List Position) (months : ℕ) :
    project_growth bp holdings months = (List.range months).map (fun i =>
      { month := i + 1
        projected_value := totalRec (blended_monthly_return bp holdings)
          ((bp.action_templates.bind ActionTemplates.monthly_contribution).getD 0)
          (.val ((holdings.map (fun p => p.value)).sum)) (i + 1) })
    ∧ (project_growth bp holdings months).length = months
    ∧ project_growth bp holdings 0 = [] := by
  have hmain : project_growth bp holdings months = (List.range months).map (fun i =>
      { month := i + 1
        projected_value := totalRec (blended_monthly_return bp holdings)
          ((bp.action_templates.bind ActionTemplates.monthly_contribution).getD 0)
          (.val ((holdings.map (fun p => p.value)).sum)) (i + 1) }) := by
    rw [project_growth]
    have h0 := project_loop_totalRec bp holdings months 0
    simp only [totalRec] at h0
    rw [h0]
    refine List.map_congr_left (fun i _ => ?_)
    have harith : 0 + 1 + i = i + 1 := by omega
    rw [harith, monthly_return_eq]
  refine ⟨hmain, ?_, rfl⟩
  rw [hmain]
  simp

/-- Seventeen positions — one more than numpy's insertion-sort
cutoff — with the rows at indices 1 and 2 (symbols S01, S02) tied at
value 90, the two largest values of the portfolio. -/
def hs17 : List Position :=
  [{ symbol := "S00", asset_class := "equity", quantity := 1, price := 10,
     value := 10, weight := PFloat.val 0 },
   { symbol := "S01", asset_class := "equity", quantity := 1, price := 90,
     value := 90, weight := PFloat.val 0 },
   { symbol := "S02", asset_class := "equity", quantity := 1, price := 90,
     value := 90, weight := PFloat.val 0 },
   { symbol := "S03", asset_class := "equity", quantity := 1, price := 13,
     value := 13, weight := PFloat.val 0 },
   { symbol := "S04", asset_class := "equity", quantity := 1, price := 14,
     value := 14, weight := PFloat.val 0 },
   { symbol := "S05", asset_class := "equity", quantity := 1, price := 15,
     value := 15, weight := PFloat.val 0 },
   { symbol := "S06", asset_class := "equity", quantity := 1, price := 16,
     value := 16, weight := PFloat.val 0 },
   { symbol := "S07", asset_class := "equity", quantity := 1, price := 17,
     value := 17, weight := PFloat.val 0 },
   { symbol := "S08", asset_class := "equity", quantity := 1, price := 18,
     value := 18, weight := PFloat.val 0 },
   { symbol := "S09", asset_class := "equity", quantity := 1, price := 19,
     value := 19, weight := PFloat.val 0 },
   { symbol := "S10", asset_class := "equity", quantity := 1, price := 20,
     value := 20, weight := PFloat.val 0 },
   { symbol := "S11", asset_class := "equity", quantity := 1, price := 21,
     value := 21, weight := PFloat.val 0 },
   { symbol := "S12", asset_class := "equity", quantity := 1, price := 22,
     value := 22, weight := PFloat.val 0 },
   { symbol := "S13", asset_class := "equity", quantity := 1, price := 23,
     value := 23, weight := PFloat.val 0 },
   { symbol := "S14", asset_class := "equity", quantity := 1, price := 24,
     value := 24, weight := PFloat.val 0 },
   { symbol := "S15", asset_class := "equity", quantity := 1, price := 25,
     value := 25, weight := PFloat.val 0 },
   { symbol := "S16", asset_class := "equity", quantity := 1, price := 26,
     value := 26, weight := PFloat.val 0 }]

set_option maxRecDepth 100000 in
/-- C6 fails on this input: in `hs17` the tied rows appear as S01 then
S02 (indices 1 and 2, both value 90), but `top_positions` lists S02
before S01 — `sort_values` with numpy's default quicksort kernel does
not preserve the original order of tied rows once the array exceeds
the insertion-sort cutoff of 16 elements. -/
theorem C6_unstable_tie :
    (summarize_allocation hs17).top_positions.map (fun r => (r.symbol, r.value))
      = [("S02", 90), ("S01", 90), ("S16", 26), ("S15", 25), ("S14", 24)]
    ∧ (hs17.map (fun p => (p.symbol, p.value))).take 3
      = [("S00", 10), ("S01", 90), ("S02", 90)] := by
  constructor
  · decide
  · decide

/-- Characterisation of `generate_rebalance_actions`: one action per
policy target, in iteration order, kept exactly when the absolute
drift reaches the (inclusive) threshold. -/
lemma generate_rebalance_eq (bp : Blueprint) (alloc : List (String × ℚ)) (V : ℚ) :
    generate_rebalance_actions bp alloc V
      = (bp.policy_targets.getD []).filterMap (fun t =>
          if |((alloc.lookup t.1).getD 0) - t.2| ≥
              (bp.action_templates.bind ActionTemplates.rebalance_threshold).getD 0 then
            some { direction := if 0 < ((alloc.lookup t.1).getD 0) - t.2 then "Trim" else "Add"
                   dollar := |((alloc.lookup t.1).getD 0) - t.2| * V
                   asset_class := t.1
                   target := t.2 }
          else none) := by
  rw [generate_rebalance_actions]
  have hfold := foldl_filterMap_one (rebalance_step bp alloc V)
    (fun t =>
      if |((alloc.lookup t.1).getD 0) - t.2| ≥
          (bp.action_templates.bind ActionTemplates.rebalance_threshold).getD 0 then
        some { direction := if 0 < ((alloc.lookup t.1).getD 0) - t.2 then "Trim" else "Add"
               dollar := |((alloc.lookup t.1).getD 0) - t.2| * V
               asset_class := t.1
               target := t.2 }
      else none)
    (fun acc x => by simp only [rebalance_step]; split_ifs <;> simp)
    (bp.policy_targets.getD []) []
  simpa using hfold

/-- C7: an action is emitted for a policy target exactly when the
absolute drift against the looked-up current weight (0.0 when the
asset class is absent) reaches the threshold inclusively; its
direction is `"Trim"` for positive drift, else `"Add"`, and its dollar
magnitude is `|drift| * total_value`. -/
theorem C7_rebalance_rule (bp : Blueprint) (alloc : List (String × ℚ)) (V : ℚ) :
    generate_rebalance_actions bp alloc V
      = (bp.policy_targets.getD []).filterMap (fun t =>
          if |((alloc.lookup t.1).getD 0) - t.2| ≥
              (bp.action_templates.bind ActionTemplates.rebalance_threshold).getD 0 then
            some { direction := if 0 < ((alloc.lookup t.1).getD 0) - t.2 then "Trim" else "Add"
                   dollar := |((alloc.lookup t.1).getD 0) - t.2| * V
                   asset_class := t.1
                   target := t.2 }
          else none) :=
  generate_rebalance_eq bp alloc V

/-- C10: with `rebalance_threshold` absent the threshold defaults to
0.0, every policy target emits an action because the comparison is
inclusive, and a target with drift exactly 0 emits an `"Add"` action
for $0. -/
theorem C10_absent_threshold (bp : Blueprint) (alloc : List (String × ℚ)) (V : ℚ)
    (h : bp.action_templates.bind ActionTemplates.rebalance_threshold = none) :
    (bp.action_templates.bind ActionTemplates.rebalance_threshold).getD 0 = 0
    ∧ (generate_rebalance_actions bp alloc V).length = (bp.policy_targets.getD []).length
    ∧ ∀ (ac : String) (t : ℚ), (ac, t) ∈ bp.policy_targets.getD [] →
        (alloc.lookup ac).getD 0 = t →
        ({ direction := "Add", dollar := 0, asset_class := ac, target := t } :
          RebalanceAction) ∈ generate_rebalance_actions bp alloc V := by
  have hmap : generate_rebalance_actions bp alloc V
      = (bp.policy_targets.getD []).map (fun t =>
          { direction := if 0 < ((alloc.lookup t.1).getD 0) - t.2 then "Trim" else "Add"
            dollar := |((alloc.lookup t.1).getD 0) - t.2| * V
            asset_class := t.1
            target := t.2 }) := by
    rw [generate_rebalance_eq, h]
    simp only [Option.getD_none, ge_iff_le, abs_nonneg, if_true]
    generalize (bp.policy_targets.getD []) = l
    induction l with
    | nil => rfl
    | cons a t ih => rw [List.filterMap_cons, List.map_cons, ih]
  refine ⟨by rw [h]; rfl, by rw [hmap, List.length_map], ?_⟩
  intro ac t hmem hcur
  rw [hmap]
  refine List.mem_map.mpr ⟨(ac, t), hmem, ?_⟩
  simp [hcur]

/-- Blueprint with one policy target and no `action_templates`
section, so no configured rebalance threshold. -/
def bpW10 : Blueprint :=
  { portfolio_holdings := none, user_profile := none, stress_tests := none
    expected_returns := none, policy_targets := some [("equity", 1/2)]
    action_templates := none }

/-- Witness for C10: with no threshold configured and zero drift, the
`"Add"` action for $0 is emitted. -/
theorem C10_witness :
    ({ direction := "Add", dollar := 0, asset_class := "equity", target := 1/2 } :
      RebalanceAction) ∈ generate_rebalance_actions bpW10 [("equity", 1/2)] 100 :=
  (C10_absent_threshold bpW10 [("equity", 1/2)] 100 rfl).2.2 "equity" (1/2)
    (by simp [bpW10]) (by simp [List.lookup])

/-- C8: the action plan is exactly the rebalance actions (in policy
target order), then the concentration actions (in top-position order),
then the configured notes verbatim in configured order — nothing else
and no re-sorting: the plan is the concatenation, its length is the
sum of the three lengths, and dropping the first two segments leaves
precisely the notes. -/
theorem C8_action_plan_order (bp : Blueprint) (alloc : List (String × ℚ))
    (analytics : AllocationSummary) (V : ℚ) :
    build_action_plan bp alloc analytics V
      = (generate_rebalance_actions bp alloc V).map ActionItem.rebalance
        ++ (generate_concentration_actions bp analytics.top_positions).map
            ActionItem.concentration
        ++ ((bp.action_templates.bind ActionTemplates.notes).getD []).map ActionItem.note
    ∧ (build_action_plan bp alloc analytics V).length
        = (generate_rebalance_actions bp alloc V).length
          + (generate_concentration_actions bp analytics.top_positions).length
          + ((bp.action_templates.bind ActionTemplates.notes).getD []).length
    ∧ (build_action_plan bp alloc analytics V).drop
          ((generate_rebalance_actions bp alloc V).length
            + (generate_concentration_actions bp analytics.top_positions).length)
        = ((bp.action_templates.bind ActionTemplates.notes).getD []).map ActionItem.note := by
  refine ⟨rfl, ?_, ?_⟩
  · simp [build_action_plan, List.length_append, Nat.add_assoc]
  · show (((generate_rebalance_actions bp alloc V).map ActionItem.rebalance
        ++ (generate_concentration_actions bp analytics.top_positions).map
            ActionItem.concentration)
        ++ ((bp.action_templates.bind ActionTemplates.notes).getD []).map
            ActionItem.note).drop
          ((generate_rebalance_actions bp alloc V).length
            + (generate_concentration_actions bp analytics.top_positions).length)
        = ((bp.action_templates.bind ActionTemplates.notes).getD []).map ActionItem.note
    have hlen : (generate_rebalance_actions bp alloc V).length
        + (generate_concentration_actions bp analytics.top_positions).length
        = ((generate_rebalance_actions bp alloc V).map ActionItem.rebalance
          ++ (generate_concentration_actions bp analytics.top_positions).map
              ActionItem.concentration).length := by
      simp [List.length_append]
    rw [hlen, List.drop_left]

/-- pandas sum of an all-finite series is the finite sum. -/
lemma psum_val {α : Type} (f : α → ℚ) (l : List α) :
    psum (l.map (fun x => PFloat.val (f x))) = PFloat.val ((l.map f).sum) := by
  have haux : ∀ (l' : List α) (a : ℚ),
      (((l'.map (fun x => PFloat.val (f x))).filter
        (fun x => ! x.isNan)).foldl pAdd (.val a))
        = PFloat.val (a + (l'.map f).sum) := by
    intro l'
    induction l' with
    | nil => intro a; simp
    | cons x t ih =>
      intro a
      simp only [List.map_cons, List.filter_cons]
      have hkeep : (! (PFloat.val (f x)).isNan) = true := rfl
      rw [hkeep]
      simp only [if_true, List.foldl_cons, List.sum_cons]
      have hstep : pAdd (.val a) (.val (f x)) = .val (a + f x) := rfl
      rw [hstep, ih]
      ring_nf
  have := haux l 0
  rw [psum, this]
  ring_nf

/-- Values of loaded positions: each equals `quantity * price` and
they sum to the portfolio's total value. -/
lemma load_portfolio_values (bp : Blueprint) (pf : Portfolio)
    (hok : load_portfolio bp = Except.ok pf) :
    (∀ p ∈ pf.holdings, p.value = p.quantity * p.price)
    ∧ (pf.holdings.map (fun p => p.value)).sum = pf.total_value := by
  obtain ⟨hs, hhs, hne, htot, hhold⟩ := load_portfolio_ok bp pf hok
  constructor
  · intro p hp
    rw [hhold] at hp
    simp only [List.mem_map] at hp
    obtain ⟨h, hh, rfl⟩ := hp
    rfl
  · rw [hhold, htot, List.map_map]
    rfl

/-- C9: the Herfindahl index is the pandas sum of squared individual
position weights (position-level, not asset-class-level); on a loaded
portfolio with positive total value and nonnegative quantities and
prices it equals the finite value `Σ (value/total)²`, which lies in
`[0, 1]`. -/
theorem C9_herfindahl (bp : Blueprint) (pf : Portfolio)
    (hok : load_portfolio bp = Except.ok pf)
    (hpos : 0 < pf.total_value)
    (hnn : ∀ p ∈ pf.holdings, 0 ≤ p.quantity ∧ 0 ≤ p.price) :
    (summarize_allocation pf.holdings).herfindahl_index
      = psum (pf.holdings.map (fun p => pMul p.weight p.weight))
    ∧ (summarize_allocation pf.holdings).herfindahl_index
      = PFloat.val ((pf.holdings.map (fun p => (p.value / pf.total_value) ^ 2)).sum)
    ∧ 0 ≤ (pf.holdings.map (fun p => (p.value / pf.total_value) ^ 2)).sum
    ∧ (pf.holdings.map (fun p => (p.value / pf.total_value) ^ 2)).sum ≤ 1 := by
  obtain ⟨hw, hsum1⟩ := load_portfolio_weights bp pf hok hpos
  obtain ⟨hval, hvsum⟩ := load_portfolio_values bp pf hok
  have hva : ∀ p ∈ pf.holdings, 0 ≤ p.value := by
    intro p hp
    rw [hval p hp]
    exact mul_nonneg (hnn p hp).1 (hnn p hp).2
  have hwle : ∀ p ∈ pf.holdings, p.value / pf.total_value ≤ 1 := by
    intro p hp
    rw [div_le_one hpos]
    have : ∀ x ∈ pf.holdings.map (fun p => p.value), 0 ≤ x := by
      intro x hx
      simp only [List.mem_map] at hx
      obtain ⟨q, hq, rfl⟩ := hx
      exact hva q hq
    have hle := List.single_le_sum this p.value (List.mem_map_of_mem _ hp)
    rw [hvsum] at hle
    exact hle
  have hsq : (pf.holdings.map (fun p => pMul p.weight p.weight))
      = pf.holdings.map (fun p => PFloat.val ((p.value / pf.total_value) ^ 2)) := by
    refine List.map_congr_left (fun p hp => ?_)
    rw [hw p hp]
    show PFloat.val (p.value / pf.total_value * (p.value / pf.total_value)) = _
    rw [← pow_two]
  have hherf : (summarize_allocation pf.holdings).herfindahl_index
      = PFloat.val ((pf.holdings.map (fun p => (p.value / pf.total_value) ^ 2)).sum) := by
    show psum (pf.holdings.map (fun p => pMul p.weight p.weight)) = _
    rw [hsq, psum_val]
  refine ⟨rfl, hherf, ?_, ?_⟩
  · refine List.sum_nonneg ?_
    intro x hx
    simp only [List.mem_map] at hx
    obtain ⟨q, hq, rfl⟩ := hx
    positivity
  · have hmono : (pf.holdings.map (fun p => (p.value / pf.total_value) ^ 2)).sum
        ≤ (pf.holdings.map (fun p => p.value / pf.total_value)).sum := by
      refine List.sum_le_sum (fun p hp => ?_)
      have h0 : 0 ≤ p.value / pf.total_value := div_nonneg (hva p hp) (le_of_lt hpos)
      have h1 : p.value / pf.total_value ≤ 1 := hwle p hp
      nlinarith
    rw [hsum1] at hmono
    exact hmono

/-- Witness for C9 at the concrete two-position portfolio: the
Herfindahl index is the finite sum of squared weights. -/
theorem C9_witness :
    (summarize_allocation pfW3.holdings).herfindahl_index
      = PFloat.val ((pfW3.holdings.map
          (fun p => (p.value / pfW3.total_value) ^ 2)).sum) :=
  (C9_herfindahl bpW3 pfW3 load_bpW3 (by norm_num [pfW3]) (by norm_num [pfW3])).2.1

/-- Witness for C5: zero months project to the empty sequence. -/
theorem C5_witness : project_growth bpC2 [] 0 = [] :=
  (C5_projection_recurrence bpC2 [] 0).2.2

/-- Witness for C7: the specification's concrete rebalance scenario —
target 0.5, current weight 2/3, threshold absent — emits a single Trim
action of `|2/3 − 1/2| × 1500 = 250` dollars. -/
theorem C7_witness :
    generate_rebalance_actions bpW10 [("equity", 2/3)] 1500
      = [{ direction := "Trim", dollar := 250, asset_class := "equity", target := 1/2 }] := by
  rw [C7_rebalance_rule]
  norm_num [bpW10, List.lookup, List.filterMap_cons, abs_of_nonneg]

/-- An empty analytics summary. -/
def summaryEmpty : AllocationSummary :=
  { weights := [], top_positions := [], herfindahl_index := PFloat.val 0 }

/-- Witness for C8 at an all-empty blueprint and summary. -/
theorem C8_witness :
    (build_action_plan bpC2 [] summaryEmpty 0).length
      = (generate_rebalance_actions bpC2 [] 0).length
        + (generate_concentration_actions bpC2 summaryEmpty.top_positions).length
        + ((bpC2.action_templates.bind ActionTemplates.notes).getD []).length :=
  (C8_action_plan_order bpC2 [] summaryEmpty 0).2.1
